import Mathlib

/-!
Verification of the sensor acquisition, register decoding and durable logging
core of the micropython field-station firmware.  The definitions below are a
shallow embedding of the Python functions in
ports/stm32/modules/src/SensorRead.py (register codec) and
ports/stm32/modules/main.py (acquisition engine, record flattener, SD logging).
Machine integers are modelled as Nat, Python dicts as insertion-ordered
association lists, the Modbus transport and the file system as explicit
oracles and state.
-/

/-! ## Register codec (SensorRead.py, modbus_registers_to_float) -/

/-- Model of struct.pack(">I", raw): the four bytes of a 32-bit unsigned
integer in big-endian order. -/
def packUInt32BE (raw : Nat) : List Nat :=
  [raw / 2 ^ 24 % 256, raw / 2 ^ 16 % 256, raw / 2 ^ 8 % 256, raw % 256]

/-- Recombine a big-endian byte list into a natural number, most significant
byte first. -/
def bytesToNatBE (bs : List Nat) : Nat :=
  bs.foldl (fun acc b => acc * 256 + b) 0

/-- An IEEE-754 single-precision value, kept as its three bit fields. -/
structure F32 where
  sign : Nat
  expo : Nat
  frac : Nat
deriving DecidableEq

/-- Field extraction of an IEEE-754 single from its 32-bit pattern: sign is
bit 31, exponent is bits 23-30, fraction is bits 0-22. -/
def f32OfBits (bits : Nat) : F32 :=
  { sign := bits / 2 ^ 31, expo := bits / 2 ^ 23 % 256, frac := bits % 2 ^ 23 }

/-- Model of struct.unpack(">f", bytes): read the four bytes as a big-endian
32-bit pattern and reinterpret it as an IEEE-754 single. -/
def unpackF32BE (bs : List Nat) : F32 := f32OfBits (bytesToNatBE bs)

/-- Exact numeric value of an IEEE-754 single as a rational: none for the
non-finite encodings (exponent 255), the subnormal formula for exponent 0 and
the normal formula otherwise.  Finite float values are exact rationals, so no
rounding happens here. -/
def f32val (f : F32) : Option ℚ :=
  if f.expo = 255 then none
  else
    let s : ℚ := if f.sign = 1 then -1 else 1
    if f.expo = 0 then some (s * f.frac / 2 ^ 149)
    else some (s * 2 ^ f.expo / 2 ^ 127 * (1 + (f.frac : ℚ) / 2 ^ 23))

/-- Embedding of SensorRead.modbus_registers_to_float: requires exactly two
registers, rebuilds raw = (registers[0] << 16) | registers[1] and reinterprets
the packed big-endian bytes as an IEEE-754 single. -/
def modbus_registers_to_float (registers : List Nat) : Except String F32 :=
  match registers with
  | [r0, r1] => .ok (unpackF32BE (packUInt32BE ((r0 <<< 16) ||| r1)))
  | _ => .error "Expected 2 registers"

/-! ## Python dictionaries

A Python dict is an insertion-ordered association list.  Assigning d[k] = v
replaces the value in place when the key is already present (keeping its
original position) and appends a new entry otherwise. -/

def dictInsert {K V : Type} [DecidableEq K] :
    List (K × V) → K → V → List (K × V)
  | [], k, v => [(k, v)]
  | (k0, v0) :: rest, k, v =>
    if k0 = k then (k, v) :: rest else (k0, v0) :: dictInsert rest k v

/-! ## Device profiles and the Modbus transport (main.py) -/

/-- One entry of a profile params list; profile.get style access means every
field can be absent. qty defaults to 2 when absent. -/
structure Param where
  name : Option String
  addr : Option Nat
  qty : Option Nat
deriving DecidableEq

/-- One SENSOR_PROFILES entry.  All fields are read with .get and can be
absent; warmup_ms defaults to 0 when absent. -/
structure Profile where
  slave_addr : Option Nat
  start_register : Option Nat
  start_value : Option Nat
  warmup_ms : Option Nat
  params : List Param
deriving DecidableEq

/-- Transport oracle for read_holding_registers: maps (slave address, start
register, register count) to a register list or a raised bus error. -/
def Bus : Type := Nat → Nat → Nat → Except String (List Nat)

/-- Transport oracle for write_single_register: maps (slave address, register,
value) to an acknowledgement or a raised bus error. -/
def WriteBus : Type := Nat → Nat → Nat → Except String Unit

/-- Observable transport and timing actions of the engine, in program order. -/
inductive Call where
  | write : Nat → Nat → Nat → Call
  | read : Nat → Nat → Nat → Call
  | sleepMs : Nat → Call
deriving DecidableEq

/-- Outcome stored for one parameter: the decoded float on success, the
absent marker None on any bus or decode failure and for a malformed entry. -/
def readOne (bus : Bus) (slave : Nat) (p : Param) : Option F32 :=
  match p.name, p.addr with
  | some _, some a =>
    match bus slave a (p.qty.getD 2) with
    | .error _ => none
    | .ok raw =>
      match modbus_registers_to_float raw with
      | .error _ => none
      | .ok v => some v
  | _, _ => none

/-- Transport calls issued for one parameter during polling: one read for a
well-formed entry, none for an entry missing name or addr. -/
def traceOne (slave : Nat) (p : Param) : List Call :=
  match p.name, p.addr with
  | some _, some a => [Call.read slave a (p.qty.getD 2)]
  | _, _ => []

/-- Loop body of read_sensor: for a malformed entry store result[name] = None
without touching the bus; otherwise issue the read, decode, and store either
the float or None when the read or the decode raises. -/
def readStep (bus : Bus) (slave : Nat)
    (acc : List (Option String × Option F32) × List Call) (p : Param) :
    List (Option String × Option F32) × List Call :=
  match p.name, p.addr with
  | some n, some a =>
    let q := p.qty.getD 2
    let tr := acc.2 ++ [Call.read slave a q]
    match bus slave a q with
    | .error _ => (dictInsert acc.1 (some n) none, tr)
    | .ok raw =>
      match modbus_registers_to_float raw with
      | .error _ => (dictInsert acc.1 (some n) none, tr)
      | .ok v => (dictInsert acc.1 (some n) (some v), tr)
  | _, _ => (dictInsert acc.1 p.name none, acc.2)

/-- Embedding of main.read_sensor: returns the per-parameter result dict
together with the transport calls issued.  With no modbus, no slave_addr or an
empty params list it returns the empty dict without touching the bus. -/
def read_sensor (modbus : Option Bus) (profile : Profile) :
    List (Option String × Option F32) × List Call :=
  match modbus, profile.slave_addr with
  | some bus, some slave =>
    if profile.params = [] then ([], [])
    else profile.params.foldl (readStep bus slave) ([], [])
  | _, _ => ([], [])

/-- Embedding of main.read_all_sensors: data[sensor_id] = read_sensor(...) for
every profile in table order; the dict is empty when modbus is None.  The
per-device try/except arm cannot fire because read_sensor is total. -/
def read_all_sensors (modbus : Option Bus)
    (profiles : List (String × Profile)) :
    List (String × List (Option String × Option F32)) :=
  match modbus with
  | none => []
  | some _ =>
    profiles.foldl (fun data sp => dictInsert data sp.1 (read_sensor modbus sp.2).1) []

/-- Loop body of activate_all_sensors: the running maximum of warmup_ms is
updated for every profile before the activation-field check; a complete
activation triple issues one write whose failure is caught and ignored. -/
def activateStep (wo : WriteBus) (acc : Nat × List Call)
    (sp : String × Profile) : Nat × List Call :=
  let warmup := sp.2.warmup_ms.getD 0
  let m := if warmup > acc.1 then warmup else acc.1
  match sp.2.slave_addr, sp.2.start_register, sp.2.start_value with
  | some slave, some reg, some value =>
    match wo slave reg value with
    | .ok _ => (m, acc.2 ++ [Call.write slave reg value])
    | .error _ => (m, acc.2 ++ [Call.write slave reg value])
  | _, _, _ => (m, acc.2)

/-- Embedding of main.activate_all_sensors as its observable trace: the writes
issued in table order followed by a single warm-up sleep when the accumulated
maximum warmup_ms is positive. -/
def activate_all_sensors (wo : WriteBus) (modbus : Option Unit)
    (profiles : List (String × Profile)) : List Call :=
  match modbus with
  | none => []
  | some _ =>
    let r := profiles.foldl (activateStep wo) (0, [])
    if r.1 > 0 then r.2 ++ [Call.sleepMs r.1] else r.2

/-- Write calls contributed by a single profile during activation. -/
def actOne (sp : String × Profile) : List Call :=
  match sp.2.slave_addr, sp.2.start_register, sp.2.start_value with
  | some slave, some reg, some value => [Call.write slave reg value]
  | _, _, _ => []

/-- The maximum warmup_ms over all profiles of a table, 0 for an empty table. -/
def tableMaxWarmup (profiles : List (String × Profile)) : Nat :=
  (profiles.map (fun sp => sp.2.warmup_ms.getD 0)).foldl max 0

/-! ## Record flattener (main.py, flatten_sensor_data) -/

/-- Python str formatting of a dict key that may be the value None. -/
def pyFormat (k : Option String) : String :=
  match k with
  | some s => s
  | none => "None"

/-- Embedding of main.flatten_sensor_data: one flat entry per (device,
parameter) pair with key device ++ "_" ++ parameter, values untouched. -/
def flatten_sensor_data {V : Type}
    (sensor_data : List (String × List (Option String × V))) :
    List (String × V) :=
  sensor_data.foldl
    (fun flat sp =>
      sp.2.foldl (fun flat pv => dictInsert flat (sp.1 ++ "_" ++ pyFormat pv.1) pv.2) flat)
    []

/-- All flat (key, value) pairs of a snapshot in declared order, before any
dict key collision is resolved by overwriting. -/
def flatPairs {V : Type}
    (sensor_data : List (String × List (Option String × V))) :
    List (String × V) :=
  sensor_data.flatMap
    (fun sp => sp.2.map (fun pv => (sp.1 ++ "_" ++ pyFormat pv.1, pv.2)))

/-! ## Python string primitives used by the CSV header check -/

/-- Python str.strip(): remove whitespace from both ends. -/
def pyStrip (s : String) : String :=
  ⟨((s.data.dropWhile Char.isWhitespace).reverse.dropWhile Char.isWhitespace).reverse⟩

/-- Python s.startswith(pre). -/
def pyStartswith (s pre : String) : Bool :=
  pre.data.isPrefixOf s.data

/-- Python f.readline() on the whole file content, with the trailing newline
dropped (the source strips the line immediately afterwards). -/
def pyReadline (s : String) : String :=
  ⟨s.data.takeWhile (fun c => c != '\n')⟩

/-! ## File system model for the SD logging layer (main.py)

Files are path to content; the oracle says which open calls raise.  Mode "w"
truncates and rewrites, mode "a" appends and creates when absent. -/

structure FS where
  files : List (String × String)
deriving DecidableEq

structure IOEnv where
  failRead : String → Bool
  failWrite : String → Bool

def fsRead (env : IOEnv) (fs : FS) (path : String) : Except Unit String :=
  if env.failRead path then .error ()
  else
    match fs.files.lookup path with
    | some c => .ok c
    | none => .error ()

def fsWrite (env : IOEnv) (fs : FS) (path content : String) : Except Unit FS :=
  if env.failWrite path then .error ()
  else .ok ⟨dictInsert fs.files path content⟩

def fsAppend (env : IOEnv) (fs : FS) (path content : String) : Except Unit FS :=
  if env.failWrite path then .error ()
  else .ok ⟨dictInsert fs.files path ((fs.files.lookup path).getD "" ++ content)⟩

/-! ## Durable log sinks (main.py) -/

/-- The header line written by ensure_csv_header: timestamp followed by the
record keys sorted lexicographically, comma joined. -/
def csvHeaderLine {V : Type} (flat : List (String × V)) : String :=
  "timestamp," ++ String.intercalate "," (List.insertionSort (· ≤ ·) (flat.map Prod.fst)) ++ "\n"

/-- Embedding of main.ensure_csv_header: try to read the first line and strip
it; when it starts with timestamp return without touching the file; on a read
failure fall through (bare except: pass); otherwise open the file in mode "w"
and write the header, truncating whatever was there. -/
def ensure_csv_header {V : Type} (env : IOEnv) (fs : FS) (path : String)
    (flat : List (String × V)) : Except Unit FS :=
  let headerOk :=
    match fsRead env fs path with
    | .ok content => pyStartswith (pyStrip (pyReadline content)) "timestamp"
    | .error _ => false
  if headerOk then .ok fs
  else fsWrite env fs path (csvHeaderLine flat)

/-- Embedding of main.append_csv_row.  flat is a dict, so its keys are
distinct and the Python list [flat[k] for k in sorted(flat.keys())] is the
value column of the pair list sorted by key. -/
def append_csv_row {V : Type} (toStr : V → String) (env : IOEnv) (fs : FS)
    (path timestamp : String) (flat : List (String × V)) : Except Unit FS :=
  let srow := List.insertionSort (fun a b => a.1 ≤ b.1) flat
  let values := srow.map (fun kv => toStr kv.2)
  fsAppend env fs path (timestamp ++ "," ++ String.intercalate "," values ++ "\n")

/-- Embedding of main.append_jsonl_record; dumps stands for the external
ujson.dumps applied to the record made of the timestamp plus all flat
fields. -/
def append_jsonl_record {V : Type} (dumps : String → List (String × V) → String)
    (env : IOEnv) (fs : FS) (path timestamp : String)
    (flat : List (String × V)) : Except Unit FS :=
  fsAppend env fs path (dumps timestamp flat ++ "\n")

/-- Embedding of main.save_to_sd: a None card handle is an immediate False
with no write; otherwise header check, CSV row append and JSONL append run in
order inside one try block, so the first raise is caught, later steps are
skipped, earlier file effects persist, and the function returns False instead
of raising. -/
def save_to_sd {V : Type} (toStr : V → String)
    (dumps : String → List (String × V) → String) (env : IOEnv)
    (sd : Option Unit) (csv_path jsonl_path timestamp : String)
    (flat : List (String × V)) (fs : FS) : Bool × FS :=
  match sd with
  | none => (false, fs)
  | some _ =>
    match ensure_csv_header env fs csv_path flat with
    | .error _ => (false, fs)
    | .ok fs1 =>
      match append_csv_row toStr env fs1 csv_path timestamp flat with
      | .error _ => (false, fs1)
      | .ok fs2 =>
        match append_jsonl_record dumps env fs2 jsonl_path timestamp flat with
        | .error _ => (false, fs2)
        | .ok fs3 => (true, fs3)

/-! ## Concrete fixtures used by counterexamples and witnesses -/

/-- Transport that answers register 10 with the encoding of 42.0 and times
out on every other register. -/
def busC2 : Bus := fun _ a _ =>
  if a = 10 then .ok [0x4228, 0x0000] else .error "bus timeout"

/-- Device with two parameters that share the name t; the first read succeeds,
the second fails. -/
def profC2 : Profile :=
  ⟨some 7, none, none, some 0,
    [⟨some "t", some 10, some 2⟩, ⟨some "t", some 12, some 2⟩]⟩

/-- Transport that always times out. -/
def busErr : Bus := fun _ _ _ => .error "bus timeout"

/-- Device whose single parameter entry is missing its register address. -/
def profC8 : Profile := ⟨some 3, none, none, some 0, [⟨some "x", none, none⟩]⟩

/-- Well-formed single-parameter device used by witnesses. -/
def profW : Profile :=
  ⟨some 1, some 1, some 15, some 400, [⟨some "t", some 10, some 2⟩]⟩

/-- Snapshot with unique device ids A and A_b whose flat keys collide. -/
def snapC7 : List (String × List (Option String × Nat)) :=
  [("A", [(some "b_c", 0)]), ("A_b", [(some "c", 1)])]

/-- Placeholder profile with no bus address, like SENSOR4_KELLER. -/
def profNone : Profile := ⟨none, none, none, some 0, []⟩

/-- Write oracle that always acknowledges. -/
def woW : WriteBus := fun _ _ _ => .ok ()

/-- Device with two distinct parameters of which only the first register
address answers on busC2. -/
def profC2W : Profile :=
  ⟨some 7, none, none, some 0,
    [⟨some "t", some 10, some 2⟩, ⟨some "p", some 12, some 2⟩]⟩

/-- One-device snapshot with a single parameter. -/
def snapW : List (String × List (Option String × Nat)) := [("X", [(some "t", 0)])]

/-- Oracle on which every file operation succeeds. -/
def envOK : IOEnv := ⟨fun _ => false, fun _ => false⟩

/-- Oracle on which opening c.csv for writing raises and everything else
succeeds. -/
def envCsvFail : IOEnv := ⟨fun _ => false, fun p => p == "c.csv"⟩

def toStrU : Unit → String := fun _ => "v"

def dumpsU : String → List (String × Unit) → String := fun _ _ => "J"

def flatU : List (String × Unit) := [("x", ())]

/-- State holding only a JSONL sink with prior content. -/
def fsC3 : FS := ⟨[("j.jsonl", "old\n")]⟩

/-- State whose CSV sink holds content without a timestamp header. -/
def fsC4 : FS := ⟨[("c.csv", "garbage\n")]⟩

/-- State whose CSV sink starts with whitespace before the word timestamp. -/
def fsC5 : FS := ⟨[("c.csv", " timestamp\n")]⟩

/-- State whose CSV sink already holds a header and one data row. -/
def fsHeaderOK : FS := ⟨[("c.csv", "timestamp,x\nT,v\n")]⟩

theorem bytesToNatBE_packUInt32BE (raw : Nat) (h : raw < 2 ^ 32) :
    bytesToNatBE (packUInt32BE raw) = raw := by
  simp only [bytesToNatBE, packUInt32BE, List.foldl]
  omega

theorem lor_lt_two_pow_32 {a b : Nat} (ha : a < 2 ^ 32) (hb : b < 2 ^ 32) :
    (a ||| b) < 2 ^ 32 :=
  Nat.bitwise_lt ha hb

/-- Claim C1: for every pair of 16-bit register words the decoder returns
exactly the IEEE-754 single obtained by reinterpreting the 32-bit big-endian
integer (hi << 16) | lo, with no byte reordering; [0x4228, 0] decodes to
exactly 42 and [0, 0] to exactly 0; every list whose length is not 2 fails
with the invalid-register-count error. -/
theorem claim_C1 :
    (∀ hi lo : Nat, hi < 65536 → lo < 65536 →
      modbus_registers_to_float [hi, lo] = .ok (f32OfBits ((hi <<< 16) ||| lo)))
    ∧ (∀ registers : List Nat, registers.length ≠ 2 →
      modbus_registers_to_float registers = .error "Expected 2 registers")
    ∧ modbus_registers_to_float [0x4228, 0x0000] = .ok (f32OfBits 0x42280000)
    ∧ f32val (f32OfBits 0x42280000) = some 42
    ∧ modbus_registers_to_float [0x0000, 0x0000] = .ok (f32OfBits 0)
    ∧ f32val (f32OfBits 0) = some 0 := by
  refine ⟨?_, ?_, rfl, ?_, rfl, ?_⟩
  · intro hi lo hhi hlo
    have hsh : hi <<< 16 < 2 ^ 32 := by
      rw [Nat.shiftLeft_eq]
      omega
    have hlo32 : lo < 2 ^ 32 := lt_trans hlo (by norm_num)
    have hraw : (hi <<< 16) ||| lo < 2 ^ 32 := lor_lt_two_pow_32 hsh hlo32
    simp [modbus_registers_to_float, unpackF32BE,
      bytesToNatBE_packUInt32BE _ hraw]
  · intro registers hlen
    match registers with
    | [] => rfl
    | [_] => rfl
    | [_, _] => exact absurd rfl hlen
    | _ :: _ :: _ :: _ => rfl
  · simp only [f32OfBits, f32val]
    norm_num
  · simp only [f32OfBits, f32val]
    norm_num

/-- Witness for claim C1 at the concrete register pair [0x4228, 0]. -/
theorem claim_C1_witness :
    (0x4228 < 65536 ∧ 0x0000 < 65536) ∧
      modbus_registers_to_float [0x4228, 0x0000] =
        .ok (f32OfBits ((0x4228 <<< 16) ||| 0x0000)) :=
  ⟨⟨by norm_num, by norm_num⟩, claim_C1.1 0x4228 0x0000 (by norm_num) (by norm_num)⟩

/-! ## Dictionary lemmas -/

theorem dictInsert_fresh {K V : Type} [DecidableEq K] (d : List (K × V))
    (k : K) (v : V) (h : k ∉ d.map Prod.fst) :
    dictInsert d k v = d ++ [(k, v)] := by
  induction d with
  | nil => rfl
  | cons kv rest ih =>
    obtain ⟨k0, v0⟩ := kv
    simp only [List.map_cons, List.mem_cons, not_or] at h
    have hne : ¬(k0 = k) := Ne.symm h.1
    simp only [dictInsert, if_neg hne, List.cons_append, List.cons.injEq, true_and]
    exact ih h.2

theorem foldl_dictInsert_eq_append {K V A : Type} [DecidableEq K]
    (k : A → K) (v : A → V) (l : List A) (d : List (K × V))
    (hnd : (l.map k).Nodup) (hfresh : ∀ x ∈ l, k x ∉ d.map Prod.fst) :
    l.foldl (fun d x => dictInsert d (k x) (v x)) d =
      d ++ l.map (fun x => (k x, v x)) := by
  induction l generalizing d with
  | nil => simp
  | cons a t ih =>
    simp only [List.map_cons, List.nodup_cons] at hnd
    simp only [List.foldl_cons]
    rw [dictInsert_fresh _ _ _ (hfresh a (List.mem_cons_self a t))]
    rw [ih (d ++ [(k a, v a)]) hnd.2]
    · simp
    · intro x hx
      simp only [List.map_append, List.mem_append, List.map_cons,
        List.map_nil, List.mem_singleton, not_or]
      refine ⟨hfresh x (List.mem_cons_of_mem a hx), fun hkx => ?_⟩
      exact hnd.1 (hkx ▸ List.mem_map_of_mem k hx)

theorem lookup_dictInsert_self {K V : Type} [DecidableEq K] [BEq K] [LawfulBEq K]
    (d : List (K × V)) (k : K) (v : V) :
    (dictInsert d k v).lookup k = some v := by
  induction d with
  | nil => simp [dictInsert, List.lookup]
  | cons kv rest ih =>
    obtain ⟨k0, v0⟩ := kv
    by_cases h : k0 = k
    · simp [dictInsert, if_pos h, List.lookup]
    · have hbe : (k == k0) = false :=
        beq_eq_false_iff_ne.mpr (fun he => h (Eq.symm he))
      simp [dictInsert, if_neg h, List.lookup, hbe, ih]

theorem lookup_dictInsert_ne {K V : Type} [DecidableEq K] [BEq K] [LawfulBEq K]
    (d : List (K × V)) (k k2 : K) (v : V) (h : k2 ≠ k) :
    (dictInsert d k v).lookup k2 = d.lookup k2 := by
  induction d with
  | nil => simp [dictInsert, List.lookup, beq_eq_false_iff_ne.mpr h]
  | cons kv rest ih =>
    obtain ⟨k0, v0⟩ := kv
    by_cases h0 : k0 = k
    · subst h0
      simp [dictInsert, List.lookup, beq_eq_false_iff_ne.mpr h]
    · simp only [dictInsert, if_neg h0, List.lookup]
      cases hbe : k2 == k0
      · simpa [hbe] using ih
      · simp [hbe]

theorem lookup_map_of_nodup {K V A : Type} [BEq K] [LawfulBEq K]
    (key : A → K) (g : A → V) (l : List A) (a : A)
    (hnd : (l.map key).Nodup) (hmem : a ∈ l) :
    (l.map (fun x => (key x, g x))).lookup (key a) = some (g a) := by
  induction l with
  | nil => cases hmem
  | cons b t ih =>
    simp only [List.map_cons, List.nodup_cons] at hnd
    rcases List.mem_cons.mp hmem with h | h
    · subst h
      simp [List.lookup]
    · have hne : key a ≠ key b := fun he => hnd.1 (he ▸ List.mem_map_of_mem key h)
      simp only [List.map_cons, List.lookup, beq_eq_false_iff_ne.mpr hne]
      exact ih hnd.2 h

/-! ## Polling loop characterization -/

theorem readStep_eq (bus : Bus) (slave : Nat)
    (acc : List (Option String × Option F32) × List Call) (p : Param) :
    readStep bus slave acc p =
      (dictInsert acc.1 p.name (readOne bus slave p), acc.2 ++ traceOne slave p) := by
  cases hn : p.name with
  | none => simp [readStep, readOne, traceOne, hn]
  | some n =>
    cases ha : p.addr with
    | none => simp [readStep, readOne, traceOne, hn, ha]
    | some a =>
      cases hb : bus slave a (p.qty.getD 2) with
      | error e => simp [readStep, readOne, traceOne, hn, ha, hb]
      | ok raw =>
        cases hd : modbus_registers_to_float raw with
        | error e => simp [readStep, readOne, traceOne, hn, ha, hb, hd]
        | ok v => simp [readStep, readOne, traceOne, hn, ha, hb, hd]

theorem foldl_readStep (bus : Bus) (slave : Nat) (l : List Param)
    (acc : List (Option String × Option F32) × List Call) :
    l.foldl (readStep bus slave) acc =
      (l.foldl (fun d p => dictInsert d p.name (readOne bus slave p)) acc.1,
        acc.2 ++ l.flatMap (traceOne slave)) := by
  induction l generalizing acc with
  | nil => simp
  | cons p t ih =>
    simp only [List.foldl_cons, readStep_eq, List.flatMap_cons]
    rw [ih]
    simp

theorem read_sensor_eq (bus : Bus) (prof : Profile) (slave : Nat)
    (hs : prof.slave_addr = some slave) (hne : prof.params ≠ [])
    (hnd : (prof.params.map Param.name).Nodup) :
    read_sensor (some bus) prof =
      (prof.params.map (fun p => (p.name, readOne bus slave p)),
        prof.params.flatMap (traceOne slave)) := by
  simp only [read_sensor, hs, if_neg hne]
  rw [foldl_readStep]
  rw [foldl_dictInsert_eq_append Param.name (readOne bus slave)
    prof.params [] hnd (by simp)]
  simp

theorem read_sensor_invalid (mb : Option Bus) (prof : Profile)
    (h : prof.slave_addr = none ∨ prof.params = []) :
    (read_sensor mb prof).1 = [] := by
  rcases h with h | h
  · cases mb <;> simp [read_sensor, h]
  · cases mb with
    | none => simp [read_sensor]
    | some bus =>
      cases hs : prof.slave_addr <;> simp [read_sensor, hs, h]

theorem read_all_sensors_eq (bus : Bus) (profiles : List (String × Profile))
    (hnd : (profiles.map Prod.fst).Nodup) :
    read_all_sensors (some bus) profiles =
      profiles.map (fun sp => (sp.1, (read_sensor (some bus) sp.2).1)) := by
  simp only [read_all_sensors]
  rw [foldl_dictInsert_eq_append Prod.fst
    (fun sp => (read_sensor (some bus) sp.2).1) profiles [] hnd (by simp)]
  simp

/-! ## Activation loop characterization -/

theorem if_gt_eq_max (a w : Nat) : (if w > a then w else a) = max a w := by
  rcases Nat.lt_or_ge a w with h | h
  · simp [if_pos h, Nat.max_eq_right (le_of_lt h)]
  · simp [if_neg (not_lt.mpr h), Nat.max_eq_left h]

theorem activateStep_eq (wo : WriteBus) (acc : Nat × List Call)
    (sp : String × Profile) :
    activateStep wo acc sp =
      (max acc.1 (sp.2.warmup_ms.getD 0), acc.2 ++ actOne sp) := by
  obtain ⟨sid, sa, sr, sv, w, ps⟩ := sp
  simp only [activateStep, actOne, if_gt_eq_max]
  cases sa with
  | none => simp
  | some slave =>
    cases sr with
    | none => simp
    | some reg =>
      cases sv with
      | none => simp
      | some value => cases h : wo slave reg value <;> simp [h]

theorem foldl_activateStep (wo : WriteBus) (l : List (String × Profile))
    (acc : Nat × List Call) :
    l.foldl (activateStep wo) acc =
      (l.foldl (fun m sp => max m (sp.2.warmup_ms.getD 0)) acc.1,
        acc.2 ++ l.flatMap actOne) := by
  induction l generalizing acc with
  | nil => simp
  | cons a t ih =>
    simp only [List.foldl_cons, activateStep_eq, List.flatMap_cons]
    rw [ih]
    simp

theorem tableMaxWarmup_eq_foldl (profiles : List (String × Profile)) :
    tableMaxWarmup profiles =
      profiles.foldl (fun m sp => max m (sp.2.warmup_ms.getD 0)) 0 := by
  simp [tableMaxWarmup, List.foldl_map]

theorem init_le_foldl_max (l : List Nat) (m : Nat) : m ≤ l.foldl max m := by
  induction l generalizing m with
  | nil => exact le_refl m
  | cons a t ih => exact le_trans (Nat.le_max_left m a) (ih (max m a))

theorem mem_le_foldl_max (l : List Nat) (m x : Nat) (hx : x ∈ l) :
    x ≤ l.foldl max m := by
  induction l generalizing m with
  | nil => cases hx
  | cons a t ih =>
    rcases List.mem_cons.mp hx with h | h
    · subst h
      exact le_trans (Nat.le_max_right m x) (init_le_foldl_max t (max m x))
    · exact ih (max m a) h

theorem foldl_max_attained (l : List Nat) (m : Nat) :
    l.foldl max m = m ∨ l.foldl max m ∈ l := by
  induction l generalizing m with
  | nil => exact Or.inl rfl
  | cons a t ih =>
    simp only [List.foldl_cons]
    rcases ih (max m a) with h | h
    · rcases Nat.le_total m a with hma | hma
      · refine Or.inr ?_
        rw [h, Nat.max_eq_right hma]
        exact List.mem_cons_self a t
      · refine Or.inl ?_
        rw [h, Nat.max_eq_left hma]
    · exact Or.inr (List.mem_cons_of_mem a h)

theorem actOne_no_sleep (sp : String × Profile) (ms : Nat) :
    Call.sleepMs ms ∉ actOne sp := by
  simp only [actOne]
  cases sp.2.slave_addr with
  | none => simp
  | some slave =>
    cases sp.2.start_register with
    | none => simp
    | some reg =>
      cases sp.2.start_value with
      | none => simp
      | some value => simp

theorem activate_all_sensors_eq (wo : WriteBus)
    (profiles : List (String × Profile)) :
    activate_all_sensors wo (some ()) profiles =
      profiles.flatMap actOne ++
        (if tableMaxWarmup profiles = 0 then []
          else [Call.sleepMs (tableMaxWarmup profiles)]) := by
  simp only [activate_all_sensors, foldl_activateStep, List.nil_append]
  rw [← tableMaxWarmup_eq_foldl]
  rcases Nat.eq_zero_or_pos (tableMaxWarmup profiles) with h | h
  · simp [h]
  · simp [Nat.pos_iff_ne_zero.mp h, h]

/-! ## Flattener characterization -/

theorem foldl_foldl_dictInsert {V : Type}
    (snapshot : List (String × List (Option String × V)))
    (acc : List (String × V)) :
    snapshot.foldl
      (fun flat sp =>
        sp.2.foldl (fun flat pv => dictInsert flat (sp.1 ++ "_" ++ pyFormat pv.1) pv.2) flat)
      acc =
    (flatPairs snapshot).foldl (fun d kv => dictInsert d kv.1 kv.2) acc := by
  induction snapshot generalizing acc with
  | nil => simp [flatPairs]
  | cons sp rest ih =>
    simp only [List.foldl_cons, flatPairs, List.flatMap_cons, List.foldl_append]
    rw [ih]
    congr 1
    rw [List.foldl_map]

theorem flatten_sensor_data_eq {V : Type}
    (snapshot : List (String × List (Option String × V)))
    (hnd : ((flatPairs snapshot).map Prod.fst).Nodup) :
    flatten_sensor_data snapshot = flatPairs snapshot := by
  simp only [flatten_sensor_data, foldl_foldl_dictInsert]
  have h := foldl_dictInsert_eq_append Prod.fst Prod.snd
    (flatPairs snapshot) [] hnd (by simp)
  simpa using h

/-! ## String lemmas for the CSV header check -/

theorem takeWhile_append_of_all {p : Char → Bool} (l r : List Char)
    (h : ∀ c ∈ l, p c = true) :
    (l ++ r).takeWhile p = l ++ r.takeWhile p := by
  induction l with
  | nil => simp
  | cons a t ih =>
    simp only [List.cons_append]
    rw [List.takeWhile_cons_of_pos (h a (List.mem_cons_self a t))]
    rw [ih (fun c hc => h c (List.mem_cons_of_mem a hc))]

theorem dropWhile_append_left_all_neg {p : Char → Bool} (l₁ l₂ : List Char)
    (h : ∀ c ∈ l₁, p c = false) (hne : l₁ ≠ []) :
    (l₁ ++ l₂).dropWhile p = l₁ ++ l₂ := by
  cases l₁ with
  | nil => exact absurd rfl hne
  | cons a t =>
    simp only [List.cons_append]
    exact List.dropWhile_cons_of_neg
      (by simp [h a (List.mem_cons_self a t)])

theorem dropWhile_append_of_all_neg {p : Char → Bool} (l₁ l₂ : List Char)
    (h : ∀ c ∈ l₂, p c = false) :
    ∃ t, (l₁ ++ l₂).dropWhile p = t ++ l₂ := by
  induction l₁ with
  | nil =>
    refine ⟨[], ?_⟩
    cases l₂ with
    | nil => simp
    | cons b t2 =>
      have hb : ¬p b = true := by simp [h b (List.mem_cons_self b t2)]
      simpa using List.dropWhile_cons_of_neg (p := p) (a := b) (l := t2) hb
  | cons a t ih =>
    by_cases hpa : p a = true
    · obtain ⟨t0, ht0⟩ := ih
      exact ⟨t0, by simpa [List.cons_append, List.dropWhile_cons_of_pos hpa] using ht0⟩
    · exact ⟨a :: t, by
        simp only [List.cons_append]
        exact List.dropWhile_cons_of_neg (by simpa using hpa)⟩

theorem isPrefixOf_append_self (l t : List Char) :
    l.isPrefixOf (l ++ t) = true := by
  induction l with
  | nil => simp [List.isPrefixOf]
  | cons a l ih => simp [List.isPrefixOf, ih]

theorem pyStartswith_of_data_append (s pre : String) (t : List Char)
    (h : s.data = pre.data ++ t) : pyStartswith s pre = true := by
  simp only [pyStartswith, h]
  exact isPrefixOf_append_self pre.data t

/-- Any file content whose bytes start with the ten characters of the literal
"timestamp," still passes the readline, strip, startswith header check. -/
theorem header_check_passes (content : String) (rest : List Char)
    (h : content.data = "timestamp,".data ++ rest) :
    pyStartswith (pyStrip (pyReadline content)) "timestamp" = true := by
  have hall : ∀ c ∈ "timestamp,".data, (c != '\n') = true := by decide
  have hws : ∀ c ∈ "timestamp,".data, Char.isWhitespace c = false := by decide
  have hwsr : ∀ c ∈ "timestamp,".data.reverse, Char.isWhitespace c = false := by
    intro c hc
    exact hws c (List.mem_reverse.mp hc)
  have h1 : (pyReadline content).data =
      "timestamp,".data ++ rest.takeWhile (fun c => c != '\n') := by
    simp only [pyReadline, h]
    exact takeWhile_append_of_all _ _ hall
  have h2 : (pyReadline content).data.dropWhile Char.isWhitespace =
      "timestamp,".data ++ rest.takeWhile (fun c => c != '\n') := by
    rw [h1]
    exact dropWhile_append_left_all_neg _ _ hws (by decide)
  obtain ⟨t0, ht0⟩ := dropWhile_append_of_all_neg
    (p := Char.isWhitespace)
    ((rest.takeWhile (fun c => c != '\n')).reverse) ("timestamp,".data.reverse) hwsr
  have h3 : (pyStrip (pyReadline content)).data =
      "timestamp,".data ++ t0.reverse := by
    simp only [pyStrip, h2, List.reverse_append]
    rw [ht0]
    simp
  apply pyStartswith_of_data_append _ _ (',' :: t0.reverse)
  rw [h3]
  have : "timestamp,".data = "timestamp".data ++ [','] := by decide
  rw [this, List.append_assoc]
  rfl

/-! ## Claims about the acquisition engine -/

/-- Claim C6: for every profile table and every write-transport behaviour the
activation trace is the write attempts in table order followed by exactly one
warm-up sleep whose duration is the maximum warmup_ms over all profiles,
placed after every profile has been iterated and skipped exactly when that
maximum is zero; the maximum bounds every profile and is attained by some
profile unless it is zero. -/
theorem claim_C6 (wo : WriteBus) (profiles : List (String × Profile)) :
    activate_all_sensors wo (some ()) profiles =
      profiles.flatMap actOne ++
        (if tableMaxWarmup profiles = 0 then []
          else [Call.sleepMs (tableMaxWarmup profiles)])
    ∧ (∀ ms, Call.sleepMs ms ∉ profiles.flatMap actOne)
    ∧ (∀ sp ∈ profiles, sp.2.warmup_ms.getD 0 ≤ tableMaxWarmup profiles)
    ∧ (tableMaxWarmup profiles = 0 ∨
        ∃ sp ∈ profiles, sp.2.warmup_ms.getD 0 = tableMaxWarmup profiles) := by
  refine ⟨activate_all_sensors_eq wo profiles, ?_, ?_, ?_⟩
  · intro ms hmem
    obtain ⟨sp, _, hsp⟩ := List.mem_flatMap.mp hmem
    exact actOne_no_sleep sp ms hsp
  · intro sp hsp
    simp only [tableMaxWarmup]
    exact mem_le_foldl_max _ 0 _ (List.mem_map_of_mem _ hsp)
  · rcases foldl_max_attained
      (profiles.map (fun sp => sp.2.warmup_ms.getD 0)) 0 with h | h
    · exact Or.inl (by simp only [tableMaxWarmup]; exact h)
    · right
      obtain ⟨sp, hsp, heq⟩ := List.mem_map.mp h
      exact ⟨sp, hsp, by simp only [tableMaxWarmup]; exact heq⟩

/-- Witness for claim C6 on a one-device table with warmup 400: one write then
one sleep of 400 ms. -/
theorem claim_C6_witness :
    activate_all_sensors woW (some ()) [("X", profW)] =
      [("X", profW)].flatMap actOne ++
        (if tableMaxWarmup [("X", profW)] = 0 then []
          else [Call.sleepMs (tableMaxWarmup [("X", profW)])]) ∧
    activate_all_sensors woW (some ()) [("X", profW)] =
      [Call.write 1 1 15, Call.sleepMs 400] :=
  ⟨(claim_C6 woW [("X", profW)]).1, by decide⟩

/-- Claim C9: a profile without a bus address contributes no transport call to
the activation trace, and polling it issues no transport call and yields the
empty parameter map. -/
theorem claim_C9 (wo : WriteBus) (bus : Bus)
    (profiles : List (String × Profile)) (sid : String) (prof : Profile)
    (h : prof.slave_addr = none) :
    actOne (sid, prof) = []
    ∧ activate_all_sensors wo (some ()) profiles =
        profiles.flatMap actOne ++
          (if tableMaxWarmup profiles = 0 then []
            else [Call.sleepMs (tableMaxWarmup profiles)])
    ∧ read_sensor (some bus) prof = ([], []) := by
  refine ⟨?_, activate_all_sensors_eq wo profiles, ?_⟩
  · simp [actOne, h]
  · simp [read_sensor, h]

/-- Witness for claim C9 on the placeholder profile. -/
theorem claim_C9_witness :
    profNone.slave_addr = none ∧
      read_sensor (some busErr) profNone = ([], []) :=
  ⟨rfl, (claim_C9 woW busErr [("Y", profNone)] "Y" profNone rfl).2.2⟩

/-- Claim C10: with a constructed transport, the snapshot returned by the full
polling pass has exactly the configured device ids as keys, in table order,
and an invalid profile (no bus address or no parameters) is mapped to the
empty parameter map rather than dropped. -/
theorem claim_C10 (bus : Bus) (profiles : List (String × Profile))
    (hnd : (profiles.map Prod.fst).Nodup) :
    (read_all_sensors (some bus) profiles).map Prod.fst = profiles.map Prod.fst
    ∧ ∀ sid prof, (sid, prof) ∈ profiles →
        (prof.slave_addr = none ∨ prof.params = []) →
        (read_all_sensors (some bus) profiles).lookup sid = some [] := by
  constructor
  · rw [read_all_sensors_eq bus profiles hnd]
    simp
  · intro sid prof hmem hinv
    rw [read_all_sensors_eq bus profiles hnd]
    have hl := lookup_map_of_nodup Prod.fst
      (fun sp => (read_sensor (some bus) sp.2).1) profiles (sid, prof) hnd hmem
    simp only at hl
    rw [hl, read_sensor_invalid (some bus) prof hinv]

/-- Witness for claim C10 on a two-device table with one placeholder. -/
theorem claim_C10_witness :
    ([("X", profW), ("Y", profNone)].map Prod.fst).Nodup ∧
      (read_all_sensors (some busErr) [("X", profW), ("Y", profNone)]).map Prod.fst
        = [("X", profW), ("Y", profNone)].map Prod.fst :=
  ⟨by decide, (claim_C10 busErr [("X", profW), ("Y", profNone)] (by decide)).1⟩

/-- Counterexample to claim C2 as stated: with two parameters sharing the name
t, the first read succeeds and decodes exactly 42, the second fails, and the
final reading set maps t to the absent marker, so the previously read
parameter does not keep its successfully decoded value. -/
theorem claim_C2_cex :
    readOne busC2 7 ⟨some "t", some 10, some 2⟩ = some ⟨0, 132, 0x280000⟩
    ∧ f32val ⟨0, 132, 0x280000⟩ = some 42
    ∧ (read_sensor (some busC2) profC2).1 = [(some "t", none)] := by
  refine ⟨by decide, ?_, by decide⟩
  simp only [f32val]
  norm_num

/-- Claim C2 (amended): provided the parameter names declared for a device are
pairwise distinct, the reading set contains one entry per parameter in
declared order whose stored outcome depends only on that parameter and the
transport (readOne), so a failure on one parameter stores its absent marker
while every other parameter of the device keeps its own outcome; and each
device of the table is polled independently of the others. -/
theorem claim_C2 (bus : Bus) (prof : Profile) (slave : Nat)
    (profiles : List (String × Profile))
    (hs : prof.slave_addr = some slave) (hne : prof.params ≠ [])
    (hnd : (prof.params.map Param.name).Nodup) :
    (read_sensor (some bus) prof).1 =
      prof.params.map (fun p => (p.name, readOne bus slave p))
    ∧ ((profiles.map Prod.fst).Nodup →
        read_all_sensors (some bus) profiles =
          profiles.map (fun sp => (sp.1, (read_sensor (some bus) sp.2).1))) := by
  refine ⟨?_, fun hnd2 => read_all_sensors_eq bus profiles hnd2⟩
  rw [read_sensor_eq bus prof slave hs hne hnd]

/-- Witness for claim C2: distinct names t and p, first read succeeds, second
fails, both entries present. -/
theorem claim_C2_witness :
    (profC2W.slave_addr = some 7 ∧ profC2W.params ≠ [] ∧
      (profC2W.params.map Param.name).Nodup) ∧
      (read_sensor (some busC2) profC2W).1 =
        profC2W.params.map (fun p => (p.name, readOne busC2 7 p)) :=
  ⟨⟨rfl, by decide, by decide⟩,
    (claim_C2 busC2 profC2W 7 [] rfl (by decide) (by decide)).1⟩

/-- Counterexample to claim C7 as stated: the device ids A and A_b are unique,
the snapshot holds two parameters, yet flattening produces a single key
because A_b_c is built both from (A, b_c) and from (A_b, c). -/
theorem claim_C7_cex :
    (snapC7.map Prod.fst).Nodup
    ∧ (snapC7.map (fun sp => sp.2.length)).sum = 2
    ∧ flatten_sensor_data snapC7 = [("A_b_c", 1)]
    ∧ (flatten_sensor_data snapC7).length = 1 :=
  ⟨by decide, by decide, by decide, by decide⟩

/-- Claim C7 (amended): provided the joined keys device_parameter are pairwise
distinct (device id uniqueness alone does not ensure this when ids or names
contain underscores), flatten is the one-to-one pairing that keeps every
value, absent markers included, under the key device ++ _ ++ parameter, and
the number of flat keys is the sum over devices of their parameter counts. -/
theorem claim_C7 {V : Type}
    (snapshot : List (String × List (Option String × V)))
    (hnd : ((flatPairs snapshot).map Prod.fst).Nodup) :
    flatten_sensor_data snapshot = flatPairs snapshot
    ∧ (flatten_sensor_data snapshot).length =
        (snapshot.map (fun sp => sp.2.length)).sum := by
  have h := flatten_sensor_data_eq snapshot hnd
  refine ⟨h, ?_⟩
  rw [h]
  simp only [flatPairs, List.length_flatMap]
  congr 1
  refine List.map_congr_left ?_
  intro sp _
  simp

/-- Witness for claim C7 on a one-device snapshot. -/
theorem claim_C7_witness :
    ((flatPairs snapW).map Prod.fst).Nodup ∧
      flatten_sensor_data snapW = flatPairs snapW :=
  ⟨by decide, (claim_C7 snapW (by decide)).1⟩

/-- Counterexample to claim C8 as stated: a parameter entry missing its
register address is skipped for reading but still contributes an absent-marker
entry under its name, so the reading set is not left without an entry. -/
theorem claim_C8_cex :
    profC8.params = [⟨some "x", none, none⟩]
    ∧ (read_sensor (some busErr) profC8).1 = [(some "x", none)]
    ∧ (read_sensor (some busErr) profC8).1 ≠ [] :=
  ⟨rfl, by decide, by decide⟩

/-- Claim C8 (amended): a parameter entry missing its name or register address
triggers no transport call and the cycle continues with the remaining
parameters, every parameter still contributing one entry; the malformed entry
is stored as the absent marker under its (possibly None) name rather than
omitted. -/
theorem claim_C8 (bus : Bus) (prof : Profile) (slave : Nat) (p : Param)
    (hs : prof.slave_addr = some slave) (hne : prof.params ≠ [])
    (hnd : (prof.params.map Param.name).Nodup)
    (hp : p ∈ prof.params) (hbad : p.name = none ∨ p.addr = none) :
    traceOne slave p = []
    ∧ (read_sensor (some bus) prof).2 = prof.params.flatMap (traceOne slave)
    ∧ (read_sensor (some bus) prof).1.lookup p.name = some none
    ∧ (read_sensor (some bus) prof).1.length = prof.params.length := by
  have hro : readOne bus slave p = none := by
    cases hn : p.name with
    | none => simp [readOne, hn]
    | some n =>
      cases ha : p.addr with
      | none => simp [readOne, hn, ha]
      | some a =>
        rcases hbad with h | h
        · rw [hn] at h; cases h
        · rw [ha] at h; cases h
  have htr : traceOne slave p = [] := by
    cases hn : p.name with
    | none => simp [traceOne, hn]
    | some n =>
      cases ha : p.addr with
      | none => simp [traceOne, hn, ha]
      | some a =>
        rcases hbad with h | h
        · rw [hn] at h; cases h
        · rw [ha] at h; cases h
  have hr := read_sensor_eq bus prof slave hs hne hnd
  refine ⟨htr, by rw [hr], ?_, by rw [hr]; simp⟩
  rw [hr]
  have hl := lookup_map_of_nodup Param.name
    (fun q => readOne bus slave q) prof.params p hnd hp
  simp only at hl
  rw [hl, hro]

/-- Witness for claim C8 on the profile whose only parameter lacks addr. -/
theorem claim_C8_witness :
    (profC8.slave_addr = some 3 ∧
      (⟨some "x", none, none⟩ : Param) ∈ profC8.params) ∧
      (read_sensor (some busErr) profC8).1.lookup (some "x") = some none := by
  refine ⟨⟨rfl, by decide⟩, ?_⟩
  exact (claim_C8 busErr profC8 3 ⟨some "x", none, none⟩ rfl (by decide)
    (by decide) (by decide) (Or.inr rfl)).2.2.1

/-! ## Sink lemmas -/

theorem sort_eq_of_perm {l₁ l₂ : List String} (h : List.Perm l₁ l₂) :
    List.insertionSort (· ≤ ·) l₁ = List.insertionSort (· ≤ ·) l₂ := by
  have h1 : List.Perm (List.insertionSort (· ≤ ·) l₁) (List.insertionSort (· ≤ ·) l₂) :=
    (List.perm_insertionSort _ l₁).trans (h.trans (List.perm_insertionSort _ l₂).symm)
  exact List.eq_of_perm_of_sorted h1
    (List.sorted_insertionSort _ l₁) (List.sorted_insertionSort _ l₂)

theorem ensure_csv_header_ok {V : Type} (env : IOEnv) (fs : FS) (path : String)
    (flat : List (String × V)) (c : String)
    (hfr : env.failRead path = false) (hl : fs.files.lookup path = some c)
    (hsw : pyStartswith (pyStrip (pyReadline c)) "timestamp" = true) :
    ensure_csv_header env fs path flat = .ok fs := by
  simp [ensure_csv_header, fsRead, hfr, hl, hsw]

theorem ensure_csv_header_write {V : Type} (env : IOEnv) (fs : FS)
    (path : String) (flat : List (String × V))
    (h : env.failRead path = true ∨ fs.files.lookup path = none ∨
      ∃ c, fs.files.lookup path = some c ∧
        pyStartswith (pyStrip (pyReadline c)) "timestamp" = false) :
    ensure_csv_header env fs path flat = fsWrite env fs path (csvHeaderLine flat) := by
  rcases h with h | h | ⟨c, hc, hsw⟩
  · simp [ensure_csv_header, fsRead, h]
  · cases hfr : env.failRead path
    · simp [ensure_csv_header, fsRead, hfr, h]
    · simp [ensure_csv_header, fsRead, hfr]
  · cases hfr : env.failRead path
    · simp [ensure_csv_header, fsRead, hfr, hc, hsw]
    · simp [ensure_csv_header, fsRead, hfr]

theorem ensure_csv_header_ok_cases {V : Type} (env : IOEnv) (fs : FS)
    (path : String) (flat : List (String × V)) (fs1 : FS)
    (h : ensure_csv_header env fs path flat = .ok fs1) :
    fs1 = fs ∨ fs1 = ⟨dictInsert fs.files path (csvHeaderLine flat)⟩ := by
  simp only [ensure_csv_header, fsWrite] at h
  split at h
  · injection h with h1
    exact Or.inl h1.symm
  · split at h
    · cases h
    · injection h with h1
      exact Or.inr h1.symm

theorem ensure_csv_header_lookup_ne {V : Type} (env : IOEnv) (fs : FS)
    (path : String) (flat : List (String × V)) (fs1 : FS) (q : String)
    (hq : q ≠ path) (h : ensure_csv_header env fs path flat = .ok fs1) :
    fs1.files.lookup q = fs.files.lookup q := by
  rcases ensure_csv_header_ok_cases env fs path flat fs1 h with h1 | h1
  · rw [h1]
  · rw [h1]
    exact lookup_dictInsert_ne _ _ _ _ hq

theorem append_csv_row_ok {V : Type} (toStr : V → String) (env : IOEnv)
    (fs : FS) (path ts : String) (flat : List (String × V)) (fs1 : FS)
    (h : append_csv_row toStr env fs path ts flat = .ok fs1) :
    ∃ row, fs1 = ⟨dictInsert fs.files path ((fs.files.lookup path).getD "" ++ row)⟩ := by
  simp only [append_csv_row, fsAppend] at h
  split at h
  · cases h
  · injection h with h1
    exact ⟨_, h1.symm⟩

theorem append_csv_row_lookup_ne {V : Type} (toStr : V → String) (env : IOEnv)
    (fs : FS) (path ts : String) (flat : List (String × V)) (fs1 : FS)
    (q : String) (hq : q ≠ path)
    (h : append_csv_row toStr env fs path ts flat = .ok fs1) :
    fs1.files.lookup q = fs.files.lookup q := by
  obtain ⟨row, h1⟩ := append_csv_row_ok toStr env fs path ts flat fs1 h
  rw [h1]
  exact lookup_dictInsert_ne _ _ _ _ hq

theorem append_jsonl_record_ok {V : Type}
    (dumps : String → List (String × V) → String) (env : IOEnv) (fs : FS)
    (path ts : String) (flat : List (String × V)) (fs1 : FS)
    (h : append_jsonl_record dumps env fs path ts flat = .ok fs1) :
    fs1 = ⟨dictInsert fs.files path
      ((fs.files.lookup path).getD "" ++ (dumps ts flat ++ "\n"))⟩ := by
  simp only [append_jsonl_record, fsAppend] at h
  split at h
  · cases h
  · injection h with h1
    exact h1.symm

theorem append_jsonl_record_lookup_ne {V : Type}
    (dumps : String → List (String × V) → String) (env : IOEnv) (fs : FS)
    (path ts : String) (flat : List (String × V)) (fs1 : FS)
    (q : String) (hq : q ≠ path)
    (h : append_jsonl_record dumps env fs path ts flat = .ok fs1) :
    fs1.files.lookup q = fs.files.lookup q := by
  rw [append_jsonl_record_ok dumps env fs path ts flat fs1 h]
  exact lookup_dictInsert_ne _ _ _ _ hq

/-! ## Claims about the durable log -/

/-- Counterexample to claim C5 as stated: a CSV file whose first line is a
space followed by timestamp does not begin with the literal token timestamp,
yet ensure_csv_header strips the line first, accepts it and writes no
header. -/
theorem claim_C5_cex :
    fsC5.files.lookup "c.csv" = some " timestamp\n"
    ∧ pyStartswith (pyReadline " timestamp\n") "timestamp" = false
    ∧ ensure_csv_header envOK fsC5 "c.csv" flatU = .ok fsC5 :=
  ⟨rfl, by decide, rfl⟩

/-- Claim C5 (amended): the tabular sink writes a header exactly when the file
cannot be read (absent or failing) or its first line, stripped of surrounding
whitespace, does not start with timestamp; the header is timestamp followed by
the record keys sorted lexicographically, independent of the record insertion
order; once a save has produced header-plus-rows content, a later save only
appends and never rewrites the header. -/
theorem claim_C5 {V : Type} (env : IOEnv) (fs : FS) (path : String)
    (flat flat2 : List (String × V)) :
    (∀ c, env.failRead path = false → fs.files.lookup path = some c →
      pyStartswith (pyStrip (pyReadline c)) "timestamp" = true →
      ensure_csv_header env fs path flat = .ok fs)
    ∧ (env.failRead path = true ∨ fs.files.lookup path = none ∨
        (∃ c, fs.files.lookup path = some c ∧
          pyStartswith (pyStrip (pyReadline c)) "timestamp" = false) →
        ensure_csv_header env fs path flat = fsWrite env fs path (csvHeaderLine flat))
    ∧ (List.Perm (flat.map Prod.fst) (flat2.map Prod.fst) →
        csvHeaderLine flat = csvHeaderLine flat2)
    ∧ (∀ (r : String) (fs2 : FS),
        fs2.files.lookup path = some (csvHeaderLine flat ++ r) →
        env.failRead path = false →
        ensure_csv_header env fs2 path flat2 = .ok fs2) := by
  refine ⟨fun c hfr hl hsw => ensure_csv_header_ok env fs path flat c hfr hl hsw,
    fun h => ensure_csv_header_write env fs path flat h, ?_, ?_⟩
  · intro hperm
    simp only [csvHeaderLine]
    rw [sort_eq_of_perm hperm]
  · intro r fs2 hl hfr
    refine ensure_csv_header_ok env fs2 path flat2 _ hfr hl ?_
    refine header_check_passes _
      ((String.intercalate "," (List.insertionSort (· ≤ ·) (flat.map Prod.fst))).data
        ++ ("\n".data ++ r.data)) ?_
    simp [csvHeaderLine, List.append_assoc]

/-- Witness for claim C5: a file already holding a header is left untouched. -/
theorem claim_C5_witness :
    (envOK.failRead "c.csv" = false ∧
      fsHeaderOK.files.lookup "c.csv" = some "timestamp,x\nT,v\n" ∧
      pyStartswith (pyStrip (pyReadline "timestamp,x\nT,v\n")) "timestamp" = true) ∧
      ensure_csv_header envOK fsHeaderOK "c.csv" flatU = .ok fsHeaderOK :=
  ⟨⟨rfl, rfl, by decide⟩,
    (claim_C5 envOK fsHeaderOK "c.csv" flatU flatU).1
      "timestamp,x\nT,v\n" rfl rfl (by decide)⟩

/-- Counterexample to claim C3 as stated: when opening the CSV sink for
writing fails, save_to_sd returns False with the state unchanged and the JSONL
append is never attempted, although attempting it on the same state would have
succeeded; the two appends are therefore not independent. -/
theorem claim_C3_cex :
    save_to_sd toStrU dumpsU envCsvFail (some ()) "c.csv" "j.jsonl" "T" flatU fsC3
      = (false, fsC3)
    ∧ append_jsonl_record dumpsU envCsvFail fsC3 "j.jsonl" "T" flatU
        = .ok ⟨[("j.jsonl", "old\nJ\n")]⟩ :=
  ⟨rfl, rfl⟩

/-- Claim C3 (amended): save_to_sd never raises and always returns a flag;
with no card handle it writes nothing and returns False; the three file steps
run sequentially inside one try block, so a tabular-sink failure returns False
with the whole state unchanged and prevents the structured append, while a
structured-sink failure still leaves the tabular effects in place, the
structured file untouched, and returns False. -/
theorem claim_C3 {V : Type} (toStr : V → String)
    (dumps : String → List (String × V) → String) (env : IOEnv)
    (csvp jsonlp ts : String) (flat : List (String × V)) (fs : FS) :
    save_to_sd toStr dumps env none csvp jsonlp ts flat fs = (false, fs)
    ∧ (env.failWrite csvp = true →
        save_to_sd toStr dumps env (some ()) csvp jsonlp ts flat fs = (false, fs))
    ∧ (csvp ≠ jsonlp → env.failWrite jsonlp = true →
        (save_to_sd toStr dumps env (some ()) csvp jsonlp ts flat fs).1 = false
        ∧ (save_to_sd toStr dumps env (some ()) csvp jsonlp ts flat fs).2.files.lookup jsonlp
            = fs.files.lookup jsonlp) := by
  refine ⟨rfl, ?_, ?_⟩
  · intro hfw
    by_cases hok : ∃ c, fsRead env fs csvp = .ok c ∧
        pyStartswith (pyStrip (pyReadline c)) "timestamp" = true
    · obtain ⟨c, hc, hsw⟩ := hok
      have hE : ensure_csv_header env fs csvp flat = .ok fs := by
        simp [ensure_csv_header, hc, hsw]
      have hA : append_csv_row toStr env fs csvp ts flat = .error () := by
        simp [append_csv_row, fsAppend, hfw]
      simp [save_to_sd, hE, hA]
    · have hE : ensure_csv_header env fs csvp flat = .error () := by
        rcases hr : fsRead env fs csvp with u | c
        · simp [ensure_csv_header, hr, fsWrite, hfw]
        · have hsw : pyStartswith (pyStrip (pyReadline c)) "timestamp" = false := by
            by_contra hne2
            exact hok ⟨c, hr, by simpa using hne2⟩
          simp [ensure_csv_header, hr, hsw, fsWrite, hfw]
      simp [save_to_sd, hE]
  · intro hne hfwj
    simp only [save_to_sd]
    rcases hE : ensure_csv_header env fs csvp flat with u | fs1
    · simp
    · have h1 := ensure_csv_header_lookup_ne env fs csvp flat fs1 jsonlp
        (fun he => hne he.symm) hE
      rcases hA : append_csv_row toStr env fs1 csvp ts flat with u | fs2
      · simp [hA, h1]
      · have h2 := append_csv_row_lookup_ne toStr env fs1 csvp ts flat fs2 jsonlp
          (fun he => hne he.symm) hA
        have hJ : append_jsonl_record dumps env fs2 jsonlp ts flat = .error () := by
          simp [append_jsonl_record, fsAppend, hfwj]
        simp [hA, hJ, h1, h2]

/-- Witness for claim C3: a failing CSV sink aborts the whole save. -/
theorem claim_C3_witness :
    envCsvFail.failWrite "c.csv" = true ∧
      save_to_sd toStrU dumpsU envCsvFail (some ()) "c.csv" "j.jsonl" "T" flatU fsC3
        = (false, fsC3) :=
  ⟨rfl, (claim_C3 toStrU dumpsU envCsvFail "c.csv" "j.jsonl" "T" flatU fsC3).2.1 rfl⟩

/-- Counterexample to claim C4 as stated: a CSV sink holding content without a
timestamp header is truncated by the header rewrite (mode "w"), so the
previous content is not a prefix of the new content and the sink is not
append-only. -/
theorem claim_C4_cex :
    fsC4.files.lookup "c.csv" = some "garbage\n"
    ∧ (save_to_sd toStrU dumpsU envOK (some ()) "c.csv" "j.jsonl" "T" flatU fsC4).2.files.lookup "c.csv"
        = some "timestamp,x\nT,v\n"
    ∧ ¬ ∃ s, "timestamp,x\nT,v\n" = "garbage\n" ++ s := by
  refine ⟨rfl, rfl, ?_⟩
  rintro ⟨s, hs⟩
  have h1 : pyStartswith ("garbage\n" ++ s) "garbage\n" = true :=
    pyStartswith_of_data_append ("garbage\n" ++ s) "garbage\n" s.data (by simp)
  rw [← hs] at h1
  exact absurd h1 (by decide)

/-- Claim C4 (amended): the structured sink only grows across any save
operation, and the tabular sink only grows provided its existing first line,
stripped, starts with timestamp and the header check can read it; when the
header check fails the tabular file is rewritten in mode "w" and truncated, so
the sinks are not unconditionally append-only. -/
theorem claim_C4 {V : Type} (toStr : V → String)
    (dumps : String → List (String × V) → String) (env : IOEnv)
    (sd : Option Unit) (csvp jsonlp ts : String) (flat : List (String × V))
    (fs : FS) (hne : csvp ≠ jsonlp) :
    (∃ s, ((save_to_sd toStr dumps env sd csvp jsonlp ts flat fs).2.files.lookup jsonlp).getD ""
        = ((fs.files.lookup jsonlp).getD "") ++ s)
    ∧ (∀ c, env.failRead csvp = false → fs.files.lookup csvp = some c →
        pyStartswith (pyStrip (pyReadline c)) "timestamp" = true →
        ∃ s, ((save_to_sd toStr dumps env sd csvp jsonlp ts flat fs).2.files.lookup csvp).getD ""
          = c ++ s) := by
  constructor
  · cases sd with
    | none => exact ⟨"", by simp [save_to_sd]⟩
    | some u =>
      simp only [save_to_sd]
      rcases hE : ensure_csv_header env fs csvp flat with u1 | fs1
      · exact ⟨"", by simp⟩
      · have h1 := ensure_csv_header_lookup_ne env fs csvp flat fs1 jsonlp
          (fun he => hne he.symm) hE
        rcases hA : append_csv_row toStr env fs1 csvp ts flat with u2 | fs2
        · exact ⟨"", by simp [hA, h1]⟩
        · have h2 := append_csv_row_lookup_ne toStr env fs1 csvp ts flat fs2 jsonlp
            (fun he => hne he.symm) hA
          rcases hJ : append_jsonl_record dumps env fs2 jsonlp ts flat with u3 | fs3
          · exact ⟨"", by simp [hA, hJ, h1, h2]⟩
          · refine ⟨dumps ts flat ++ "\n", ?_⟩
            have h3 := append_jsonl_record_ok dumps env fs2 jsonlp ts flat fs3 hJ
            simp only [hA, hJ]
            rw [h3]
            simp only [lookup_dictInsert_self]
            rw [h2, h1]
            simp
  · intro c hfr hl hsw
    cases sd with
    | none => exact ⟨"", by simp [save_to_sd, hl]⟩
    | some u =>
      have hE : ensure_csv_header env fs csvp flat = .ok fs :=
        ensure_csv_header_ok env fs csvp flat c hfr hl hsw
      simp only [save_to_sd, hE]
      rcases hA : append_csv_row toStr env fs csvp ts flat with u2 | fs2
      · exact ⟨"", by simp [hl]⟩
      · obtain ⟨row, h2⟩ := append_csv_row_ok toStr env fs csvp ts flat fs2 hA
        rcases hJ : append_jsonl_record dumps env fs2 jsonlp ts flat with u3 | fs3
        · refine ⟨row, ?_⟩
          simp only [hJ]
          rw [h2]
          simp only [lookup_dictInsert_self]
          simp [hl]
        · refine ⟨row, ?_⟩
          have h3 := append_jsonl_record_ok dumps env fs2 jsonlp ts flat fs3 hJ
          simp only [hJ]
          rw [h3]
          rw [lookup_dictInsert_ne _ _ _ _ hne]
          rw [h2]
          simp only [lookup_dictInsert_self]
          simp [hl]

/-- Witness for claim C4: the structured sink grows across a successful
save. -/
theorem claim_C4_witness :
    ("c.csv" : String) ≠ "j.jsonl" ∧
      ∃ s, ((save_to_sd toStrU dumpsU envOK (some ()) "c.csv" "j.jsonl" "T" flatU fsC3).2.files.lookup "j.jsonl").getD ""
        = ((fsC3.files.lookup "j.jsonl").getD "") ++ s :=
  ⟨by decide,
    (claim_C4 toStrU dumpsU envOK (some ()) "c.csv" "j.jsonl" "T" flatU fsC3 (by decide)).1⟩
